import Mathlib

/-!
Verification of the scheduling core of the sonoff-diy-mini accessory plugin
(`src/index.js`): the `Queue` dispatcher (priority lanes, busy flag, cooldown)
and the `SwitchAccessory` set/poll paths (cached state, change detection,
error propagation).

The `Queue` class is embedded as a labelled transition system: each timer
firing, call-site invocation, task completion and cooldown expiry is one
atomic step, which is faithful to the single-threaded event loop (the
source's `run` sets `inProgress` synchronously before the first `await`).
The accessory's set and poll handlers are embedded as pure functions from
the device's HTTP outcome to the new cached state, the callback outcome and
the list of raised notifications.
-/

/-- Tasks are opaque callbacks (`cb`) in the source; we identify them by `Nat` ids. -/
abbrev Cb := Nat

/-- State of a `Queue` instance (`src/index.js`, class `Queue`):
`requests` and `immediateRequests` are the two lanes (field initialisers
`= []`), `inProgress` is the busy flag, `wait` is the cooldown duration
given to the constructor.  `running` records the callbacks currently
executing (the source has no such field; we track it to state mutual
exclusion), `time` is the event-loop clock and `cooldownUntil` the deadline
of the pending `setTimeout(() => this.inProgress = false, this.wait)`. -/
structure QueueState where
  inProgress : Bool
  immediateRequests : List Cb
  requests : List Cb
  running : List Cb
  time : Nat
  cooldownUntil : Option Nat
  wait : Nat
deriving DecidableEq, Repr

namespace Queue

/-- A `Queue` as constructed (`constructor(log, frequency, wait)`): both lane
arrays empty, `inProgress = false`, nothing running, no cooldown pending. -/
def init (w : Nat) : QueueState :=
  { inProgress := false, immediateRequests := [], requests := [],
    running := [], time := 0, cooldownUntil := none, wait := w }

/-- `Math.ceil(1000 / frequency)` computed in the constructor: ceiling
division on naturals. -/
def timeout (frequency : Nat) : Nat :=
  (1000 + frequency - 1) / frequency

/-- The synchronous prefix of `run(cb)`: `this.inProgress = true` and the
callback starts executing (`await cb()`). -/
def run (t : Cb) (s : QueueState) : QueueState :=
  { s with inProgress := true, running := s.running ++ [t] }

/-- `immediate(cb)`: `this.immediateRequests.push(cb)`. -/
def immediate (t : Cb) (s : QueueState) : QueueState :=
  { s with immediateRequests := s.immediateRequests ++ [t] }

/-- `attempt(cb)`: `if (!this.inProgress) { this.run(cb); }`. -/
def attempt (t : Cb) (s : QueueState) : QueueState :=
  if s.inProgress then s else run t s

/-- One firing of `iteration`: return while `inProgress`; otherwise shift
and run the front of `immediateRequests`, else the front of `requests`. -/
def iteration (s : QueueState) : QueueState :=
  if s.inProgress then s
  else
    match s.immediateRequests with
    | t :: rest => run t { s with immediateRequests := rest }
    | [] =>
      match s.requests with
      | t :: rest => run t { s with requests := rest }
      | [] => s

/-- The running callback finishes (resolves or throws; a throw is caught and
logged).  The `finally` block schedules `inProgress = false` to happen
`wait` ms later: `cooldownUntil := time + wait`.  `inProgress` itself is
left `true`. -/
def taskComplete (s : QueueState) : QueueState :=
  match s.running with
  | _ :: rest => { s with running := rest, cooldownUntil := some (s.time + s.wait) }
  | [] => s

/-- The `setTimeout` from `run`'s `finally` fires: once the clock has
reached the scheduled deadline, `this.inProgress = false`. -/
def cooldownFire (s : QueueState) : QueueState :=
  match s.cooldownUntil with
  | some d => if d ≤ s.time then { s with inProgress := false, cooldownUntil := none } else s
  | none => s

/-- Events of the event loop that touch a `Queue`.  `immediate` is invoked
by the set handler, `attempt` by the poll timer, `tick` is the `setInterval`
from the constructor, `complete` a task resolving, `advance` the passage of
time, `expire` the cooldown `setTimeout` firing.  No call site of the
program ever pushes onto the generic `requests` lane, so no event does. -/
inductive Event where
  | immediate (t : Cb)
  | attempt (t : Cb)
  | tick
  | complete
  | advance (d : Nat)
  | expire
deriving DecidableEq, Repr

/-- Effect of one event on the queue state. -/
def stepEvent : Event → QueueState → QueueState
  | .immediate t, s => immediate t s
  | .attempt t, s => attempt t s
  | .tick, s => iteration s
  | .complete, s => taskComplete s
  | .advance d, s => { s with time := s.time + d }
  | .expire, s => cooldownFire s

/-- One step of the system: some event occurs. -/
def StepRel (s s' : QueueState) : Prop := ∃ e, s' = stepEvent e s

/-- `Reach s s'`: `s'` is obtainable from `s` by a finite event sequence. -/
abbrev Reach : QueueState → QueueState → Prop := Relation.ReflTransGen StepRel

/-- States the program can actually be in, for a queue built with cooldown `w`. -/
abbrev Reachable (w : Nat) (s : QueueState) : Prop := Reach (init w) s

end Queue

/-- Parsed body of a device HTTP response: an `error` field (JS `null` or a
numeric code; absent is modelled as `none` like `null`) and `data.switch`. -/
structure InfoResponse where
  error : Option Int
  switch : String
deriving DecidableEq, Repr

/-- JS truthiness of the `error` field as tested by `if (error)`:
`null`/absent and `0` are falsy, every other number is truthy. -/
def truthy : Option Int → Bool
  | none => false
  | some n => n != 0

/-- Outcome of an HTTP POST as seen by `request`: the axios promise either
resolves with the parsed body or rejects with a transport error (modelled
as a `String` message). -/
abbrev HttpOutcome := Except String InfoResponse

/-- A rejection of `getOn`: the underlying request failed, or the body
carried a truthy `error` code which `getOn` re-throws. -/
inductive GetError where
  | transport (e : String)
  | device (code : Int)
deriving DecidableEq, Repr

namespace SwitchAccessory

/-- `getOn()`: forwards a request failure; on a resolved body destructures
`{error, data}`, rejects with `error` when it is truthy, and otherwise
resolves `data.switch === "on"`. -/
def getOn (resp : HttpOutcome) : Except GetError Bool :=
  match resp with
  | .error e => .error (.transport e)
  | .ok r =>
    match r.error with
    | some n => if n != 0 then .error (.device n) else .ok (r.switch == "on")
    | none => .ok (r.switch == "on")

/-- `setOn(value)`: posts to `/zeroconf/switch` and resolves with whatever
body came back, never inspecting it; a transport failure is the only way it
rejects. -/
def setOn (resp : HttpOutcome) : HttpOutcome := resp

/-- The task queued by `setOnCharacteristicHandler(value, callback)`:
`setOn(value).then(() => { this.state = value; callback(null); }).catch(callback)`.
Input: the device outcome and the cached `this.state` (`none` while still
`undefined`).  Output: the new cached state and what the HomeKit callback
receives (`.ok ()` for `callback(null)`, `.error e` for `callback(e)`). -/
def setOnCharacteristicHandler (value : Bool) (resp : HttpOutcome)
    (state : Option Bool) : Option Bool × Except String Unit :=
  match setOn resp with
  | .ok _ => (some value, .ok ())
  | .error e => (state, .error e)

/-- The task passed by `loadState` to `queue.attempt`:
`newState = await getOn(); if (state !== newState) { state = newState; updateValue(state); }`.
Output: new cached state and the list of `updateValue` notifications raised
(a `getOn` rejection propagates to `run`'s catch, which only logs). -/
def loadStateTask (resp : HttpOutcome) (state : Option Bool) :
    Option Bool × List Bool :=
  match getOn resp with
  | .error _ => (state, [])
  | .ok v => if state = some v then (state, []) else (some v, [v])

/-- Several successive poll cycles whose `getOn` outcomes are given:
threads the cached state through `loadStateTask` and concatenates the
notifications. -/
def pollRun : List HttpOutcome → Option Bool → Option Bool × List Bool
  | [], state => (state, [])
  | r :: rs, state =>
    let p := loadStateTask r state
    let q := pollRun rs p.1
    (q.1, p.2 ++ q.2)

/-- One firing of the poll timer (`loadState` called via `queue.attempt`):
while the queue is busy the task is discarded, so no device call happens and
nothing changes; otherwise the poll task runs.  The last component records
whether a device call was made. -/
def loadState (busy : Bool) (resp : HttpOutcome) (state : Option Bool) :
    Option Bool × List Bool × Bool :=
  if busy then (state, [], false)
  else ((loadStateTask resp state).1, (loadStateTask resp state).2, true)

/-- The accessory constructor runs `new Queue(log, 2, 100)`. -/
def queueFrequency : Nat := 2

/-- Cooldown passed to the queue by the accessory constructor. -/
def queueWait : Nat := 100

end SwitchAccessory

/-- The scheduling tick transcribed from the specification's words: "on each
tick, if `busy` is true, do nothing; else if the Immediate lane is
non-empty, pop its front task and execute it; else if the Queued lane is
non-empty, pop its front task and execute it; else do nothing."  Stated
independently of `Queue.iteration` so the two can be compared. -/
def tickSpec (s : QueueState) : QueueState :=
  if s.inProgress then s
  else if h : s.immediateRequests ≠ [] then
    Queue.run (s.immediateRequests.head (by exact h))
      { s with immediateRequests := s.immediateRequests.tail }
  else if h2 : s.requests ≠ [] then
    Queue.run (s.requests.head (by exact h2))
      { s with requests := s.requests.tail }
  else s

/-- Inductive invariant of the queue: at most one callback is executing;
while one is, `inProgress` is set; and a pending cooldown implies the busy
flag is still up with nothing running. -/
def QueueInv (s : QueueState) : Prop :=
  s.running.length ≤ 1 ∧
  (s.running ≠ [] → s.inProgress = true) ∧
  (s.cooldownUntil ≠ none → s.inProgress = true ∧ s.running = [])

/-- Invariant of the stretch between a task's completion and the firing of
its cooldown timer with deadline `d`: either the queue is still busy with
that timer pending and nothing running, or the clock has already passed
`d`. -/
def CooldownPhase (d : Nat) (s : QueueState) : Prop :=
  (s.inProgress = true ∧ s.cooldownUntil = some d ∧ s.running = []) ∨ d ≤ s.time

/-! ### Queue invariants -/

/-- Every event preserves the queue invariant. -/
theorem queueInv_step (e : Queue.Event) (s : QueueState) (h : QueueInv s) :
    QueueInv (Queue.stepEvent e s) := by
  obtain ⟨h1, h2, h3⟩ := h
  cases e with
  | immediate t =>
    exact ⟨h1, h2, h3⟩
  | attempt t =>
    by_cases hb : s.inProgress
    · simpa [Queue.stepEvent, Queue.attempt, hb] using ⟨h1, h2, h3⟩
    · have hr : s.running = [] := by
        by_contra hne
        exact hb (h2 hne)
      have hc : s.cooldownUntil = none := by
        by_contra hne
        exact hb ((h3 hne).1)
      simp [Queue.stepEvent, Queue.attempt, hb, Queue.run, QueueInv, hr, hc]
  | tick =>
    by_cases hb : s.inProgress
    · simpa [Queue.stepEvent, Queue.iteration, hb] using ⟨h1, h2, h3⟩
    · have hr : s.running = [] := by
        by_contra hne
        exact hb (h2 hne)
      have hc : s.cooldownUntil = none := by
        by_contra hne
        exact hb ((h3 hne).1)
      cases himm : s.immediateRequests with
      | cons t rest =>
        simp [Queue.stepEvent, Queue.iteration, hb, himm, Queue.run, QueueInv, hr, hc]
      | nil =>
        cases hreq : s.requests with
        | cons t rest =>
          simp [Queue.stepEvent, Queue.iteration, hb, himm, hreq, Queue.run, QueueInv, hr, hc]
        | nil =>
          simpa [Queue.stepEvent, Queue.iteration, hb, himm, hreq] using ⟨h1, h2, h3⟩
  | complete =>
    cases hr : s.running with
    | nil => simpa [Queue.stepEvent, Queue.taskComplete, hr] using ⟨h1, h2, h3⟩
    | cons t rest =>
      have hbusy : s.inProgress = true := h2 (by simp [hr])
      have hrest : rest = [] := by simpa [hr] using h1
      simp [Queue.stepEvent, Queue.taskComplete, hr, QueueInv, hrest, hbusy]
  | advance d =>
    exact ⟨h1, h2, h3⟩
  | expire =>
    cases hc : s.cooldownUntil with
    | none => simpa [Queue.stepEvent, Queue.cooldownFire, hc] using ⟨h1, h2, h3⟩
    | some d =>
      have hr : s.running = [] := (h3 (by simp [hc])).2
      by_cases ht : d ≤ s.time
      · simp [Queue.stepEvent, Queue.cooldownFire, hc, ht, QueueInv, hr]
      · simpa [Queue.stepEvent, Queue.cooldownFire, hc, ht] using ⟨h1, h2, h3⟩

/-- The queue invariant holds in every reachable state. -/
theorem queueInv_reachable {w : Nat} {s : QueueState}
    (h : Queue.Reachable w s) : QueueInv s := by
  induction h with
  | refl => exact ⟨by simp [Queue.init], by simp [Queue.init], by simp [Queue.init]⟩
  | tail hab hbc ih =>
    obtain ⟨e, rfl⟩ := hbc
    exact queueInv_step e _ ih

/-- No event ever puts anything into the generic `requests` lane. -/
theorem requests_step (e : Queue.Event) (s : QueueState)
    (h : s.requests = []) : (Queue.stepEvent e s).requests = [] := by
  cases e with
  | immediate t => simpa [Queue.stepEvent, Queue.immediate] using h
  | attempt t =>
    by_cases hb : s.inProgress <;>
      simp [Queue.stepEvent, Queue.attempt, hb, Queue.run, h]
  | tick =>
    by_cases hb : s.inProgress
    · simpa [Queue.stepEvent, Queue.iteration, hb] using h
    · cases himm : s.immediateRequests with
      | cons t rest => simp [Queue.stepEvent, Queue.iteration, hb, himm, Queue.run, h]
      | nil => simp [Queue.stepEvent, Queue.iteration, hb, himm, h]
  | complete =>
    cases hr : s.running <;> simp [Queue.stepEvent, Queue.taskComplete, hr, h]
  | advance d => simpa [Queue.stepEvent] using h
  | expire =>
    cases hc : s.cooldownUntil with
    | none => simpa [Queue.stepEvent, Queue.cooldownFire, hc] using h
    | some d =>
      by_cases ht : d ≤ s.time <;>
        simp [Queue.stepEvent, Queue.cooldownFire, hc, ht, h]

/-- The event-loop clock never decreases. -/
theorem time_mono (e : Queue.Event) (s : QueueState) :
    s.time ≤ (Queue.stepEvent e s).time := by
  cases e with
  | immediate t => simp [Queue.stepEvent, Queue.immediate]
  | attempt t =>
    by_cases hb : s.inProgress <;> simp [Queue.stepEvent, Queue.attempt, hb, Queue.run]
  | tick =>
    by_cases hb : s.inProgress
    · simp [Queue.stepEvent, Queue.iteration, hb]
    · cases himm : s.immediateRequests with
      | cons t rest => simp [Queue.stepEvent, Queue.iteration, hb, himm, Queue.run]
      | nil =>
        cases hreq : s.requests with
        | cons t rest => simp [Queue.stepEvent, Queue.iteration, hb, himm, hreq, Queue.run]
        | nil => simp [Queue.stepEvent, Queue.iteration, hb, himm, hreq]
  | complete =>
    cases hr : s.running <;> simp [Queue.stepEvent, Queue.taskComplete, hr]
  | advance d => simp [Queue.stepEvent]
  | expire =>
    cases hc : s.cooldownUntil with
    | none => simp [Queue.stepEvent, Queue.cooldownFire, hc]
    | some d =>
      by_cases ht : d ≤ s.time <;> simp [Queue.stepEvent, Queue.cooldownFire, hc, ht]

/-- A step that makes the set of executing callbacks grow must start from a
non-busy state: both `attempt` and `iteration` test `inProgress` first, and
no other event starts anything. -/
theorem running_grows_not_busy (e : Queue.Event) (s : QueueState)
    (h : s.running.length < (Queue.stepEvent e s).running.length) :
    s.inProgress = false := by
  by_contra hb
  have hb' : s.inProgress = true := by
    cases hib : s.inProgress
    · exact absurd hib hb
    · rfl
  cases e with
  | immediate t => simp [Queue.stepEvent, Queue.immediate] at h
  | attempt t => simp [Queue.stepEvent, Queue.attempt, hb'] at h
  | tick => simp [Queue.stepEvent, Queue.iteration, hb'] at h
  | complete =>
    cases hr : s.running with
    | nil => simp [Queue.stepEvent, Queue.taskComplete, hr] at h
    | cons x rest =>
      simp [Queue.stepEvent, Queue.taskComplete, hr] at h
  | advance d => simp [Queue.stepEvent] at h
  | expire =>
    cases hc : s.cooldownUntil with
    | none => simp [Queue.stepEvent, Queue.cooldownFire, hc] at h
    | some d =>
      by_cases ht : d ≤ s.time <;>
        simp [Queue.stepEvent, Queue.cooldownFire, hc, ht] at h

/-- Every event preserves the cooldown-phase invariant for deadline `d`. -/
theorem cooldownPhase_step (d : Nat) (e : Queue.Event) (s : QueueState)
    (h : CooldownPhase d s) : CooldownPhase d (Queue.stepEvent e s) := by
  cases h with
  | inr htime => exact Or.inr (le_trans htime (time_mono e s))
  | inl hl =>
    obtain ⟨hb, hc, hr⟩ := hl
    cases e with
    | immediate t =>
      exact Or.inl ⟨hb, hc, hr⟩
    | attempt t =>
      simp only [Queue.stepEvent, Queue.attempt, hb, if_true]
      exact Or.inl ⟨hb, hc, hr⟩
    | tick =>
      simp only [Queue.stepEvent, Queue.iteration, hb, if_true]
      exact Or.inl ⟨hb, hc, hr⟩
    | complete =>
      simp only [Queue.stepEvent, Queue.taskComplete, hr]
      exact Or.inl ⟨hb, hc, hr⟩
    | advance k =>
      exact Or.inl ⟨hb, hc, hr⟩
    | expire =>
      by_cases ht : d ≤ s.time
      · simp only [Queue.stepEvent, Queue.cooldownFire, hc, ht, if_true]
        exact Or.inr ht
      · simp only [Queue.stepEvent, Queue.cooldownFire, hc, ht, if_false]
        exact Or.inl ⟨hb, hc, hr⟩

/-- The cooldown-phase invariant carries over any event sequence. -/
theorem cooldownPhase_reach (d : Nat) {s1 s2 : QueueState}
    (h : Queue.Reach s1 s2) (h0 : CooldownPhase d s1) : CooldownPhase d s2 := by
  induction h with
  | refl => exact h0
  | tail hab hbc ih =>
    obtain ⟨e, rfl⟩ := hbc
    exact cooldownPhase_step d e _ ih

/-! ### Claims -/

/-- C1: while `inProgress` is true no new task starts — `iteration` returns
the state unchanged and `attempt` discards its callback — and therefore in
every reachable state at most one callback is executing. -/
theorem busy_mutual_exclusion (w : Nat) (s : QueueState)
    (h : Queue.Reachable w s) :
    s.running.length ≤ 1 ∧
    (s.inProgress = true →
      Queue.iteration s = s ∧ ∀ t, Queue.attempt t s = s) := by
  refine ⟨(queueInv_reachable h).1, fun hb => ⟨?_, fun t => ?_⟩⟩
  · simp [Queue.iteration, hb]
  · simp [Queue.attempt, hb]

/-- Witness for C1 at a concrete reachable state: after submitting one
immediate callback and letting one tick dispatch it, the busy state is
reachable, at most one callback runs, and a tick leaves it unchanged. -/
theorem busy_mutual_exclusion_witness :
    (Queue.stepEvent .tick (Queue.stepEvent (.immediate 1) (Queue.init 100))).running.length ≤ 1 ∧
    Queue.iteration (Queue.stepEvent .tick (Queue.stepEvent (.immediate 1) (Queue.init 100))) =
      Queue.stepEvent .tick (Queue.stepEvent (.immediate 1) (Queue.init 100)) := by
  have hreach : Queue.Reachable 100
      (Queue.stepEvent .tick (Queue.stepEvent (.immediate 1) (Queue.init 100))) :=
    Relation.ReflTransGen.tail
      (Relation.ReflTransGen.tail Relation.ReflTransGen.refl ⟨.immediate 1, rfl⟩)
      ⟨.tick, rfl⟩
  have h := busy_mutual_exclusion 100 _ hreach
  exact ⟨h.1, (h.2 (by decide)).1⟩

/-- C4: one tick of `iteration` equals the specification's tick — if busy do
nothing, else pop and run the front of the Immediate lane, else of the
Queued lane, else nothing — and when the Immediate lane is non-empty its
front is the callback dispatched, whatever the Queued lane holds. -/
theorem tick_matches_spec (s : QueueState) :
    Queue.iteration s = tickSpec s ∧
    (∀ t r, s.inProgress = false → s.immediateRequests = t :: r →
      Queue.iteration s = Queue.run t { s with immediateRequests := r }) := by
  constructor
  · by_cases hb : s.inProgress
    · simp [Queue.iteration, tickSpec, hb]
    · cases himm : s.immediateRequests with
      | cons t rest => simp [Queue.iteration, tickSpec, hb, himm]
      | nil =>
        cases hreq : s.requests with
        | cons t rest => simp [Queue.iteration, tickSpec, hb, himm, hreq]
        | nil => simp [Queue.iteration, tickSpec, hb, himm, hreq]
  · intro t r hb himm
    simp [Queue.iteration, hb, himm]

/-- Witness for C4: with Immediate lane `[1, 2]` and Queued lane `[3]`, the
tick dispatches `1`, the front of the Immediate lane. -/
theorem tick_matches_spec_witness :
    Queue.iteration ⟨false, [1, 2], [3], [], 0, none, 100⟩ =
      Queue.run 1 ⟨false, [2], [3], [], 0, none, 100⟩ :=
  (tick_matches_spec ⟨false, [1, 2], [3], [], 0, none, 100⟩).2 1 [2] rfl rfl

/-- C6: a callback handed to `attempt` while busy is discarded — the whole
queue state (both lanes included) is unchanged and the poll cycle makes no
device call and leaves the cached state and notifications untouched; when
not busy, `attempt` runs the callback directly and immediately. -/
theorem attempt_busy_discards (t : Cb) (s : QueueState) (resp : HttpOutcome)
    (st : Option Bool) :
    (s.inProgress = true →
      Queue.attempt t s = s ∧
      SwitchAccessory.loadState true resp st = (st, [], false)) ∧
    (s.inProgress = false → Queue.attempt t s = Queue.run t s) := by
  constructor
  · intro hb
    exact ⟨by simp [Queue.attempt, hb], by simp [SwitchAccessory.loadState]⟩
  · intro hb
    simp [Queue.attempt, hb]

/-- Witness for C6 at a busy state: the discarded callback changes nothing,
and a poll under busy reports no device call. -/
theorem attempt_busy_discards_witness :
    Queue.attempt 7 ⟨true, [1], [], [9], 3, none, 100⟩ =
      ⟨true, [1], [], [9], 3, none, 100⟩ ∧
    SwitchAccessory.loadState true (Except.ok ⟨none, "off"⟩) (some true) =
      (some true, [], false) := by
  have h := attempt_busy_discards 7 ⟨true, [1], [], [9], 3, none, 100⟩
    (Except.ok ⟨none, "off"⟩) (some true)
  exact h.1 rfl

/-- C9: in every reachable state the generic `requests` lane is empty — no
call site of the program pushes onto it — and hence the queued-lane branch
of `iteration` never dispatches: a tick with an empty Immediate lane and an
idle queue is a no-op. -/
theorem requests_lane_dead (w : Nat) (s : QueueState)
    (h : Queue.Reachable w s) :
    s.requests = [] ∧
    (s.inProgress = false → s.immediateRequests = [] →
      Queue.iteration s = s) := by
  have hreq : s.requests = [] := by
    induction h with
    | refl => rfl
    | tail hab hbc ih =>
      obtain ⟨e, rfl⟩ := hbc
      exact requests_step e _ ih
  refine ⟨hreq, fun hb himm => ?_⟩
  simp [Queue.iteration, hb, himm, hreq]

/-- Witness for C9 at the freshly constructed queue: the lane is empty and
the first idle tick changes nothing. -/
theorem requests_lane_dead_witness :
    (Queue.init 100).requests = [] ∧
    Queue.iteration (Queue.init 100) = Queue.init 100 := by
  have h := requests_lane_dead 100 (Queue.init 100) Relation.ReflTransGen.refl
  exact ⟨h.1, h.2 rfl rfl⟩

/-- C3: when the executing callback completes at time `s.time`, the busy
flag stays up until at least `s.time + s.wait`: any later state that is
dispatch-ready (`inProgress = false`) — and in particular any step that
starts a new callback — lies at or after that deadline; and a
dispatch-ready state is in fact reached. -/
theorem cooldown_spacing (s : QueueState) (t : Cb)
    (hrun : s.running = [t]) (hbusy : s.inProgress = true) :
    (∀ s', Queue.Reach (Queue.taskComplete s) s' →
      s'.inProgress = false → s.time + s.wait ≤ s'.time) ∧
    (∀ s' e, Queue.Reach (Queue.taskComplete s) s' →
      s'.running.length < (Queue.stepEvent e s').running.length →
      s.time + s.wait ≤ s'.time) ∧
    (∃ s', Queue.Reach (Queue.taskComplete s) s' ∧ s'.inProgress = false) := by
  have h0 : CooldownPhase (s.time + s.wait) (Queue.taskComplete s) := by
    left
    simp [Queue.taskComplete, hrun, hbusy]
  have hmain : ∀ s', Queue.Reach (Queue.taskComplete s) s' →
      s'.inProgress = false → s.time + s.wait ≤ s'.time := by
    intro s' hre hidle
    cases cooldownPhase_reach (s.time + s.wait) hre h0 with
    | inl hl => rw [hl.1] at hidle; cases hidle
    | inr hr => exact hr
  refine ⟨hmain, fun s' e hre hgrow => ?_, ?_⟩
  · exact hmain s' hre (running_grows_not_busy e s' hgrow)
  · refine ⟨Queue.stepEvent .expire (Queue.stepEvent (.advance s.wait) (Queue.taskComplete s)), ?_, ?_⟩
    · exact Relation.ReflTransGen.tail
        (Relation.ReflTransGen.tail Relation.ReflTransGen.refl ⟨.advance s.wait, rfl⟩)
        ⟨.expire, rfl⟩
    · simp [Queue.stepEvent, Queue.taskComplete, hrun, Queue.cooldownFire]

/-- Witness for C3: a queue busy with callback `0` at time 7 with cooldown
100; after completion, the cooled-down dispatch-ready state that is reached
can only lie at or after time 107 — and one is reached. -/
theorem cooldown_spacing_witness :
    ∃ s', Queue.Reach (Queue.taskComplete ⟨true, [], [], [0], 7, none, 100⟩) s' ∧
      s'.inProgress = false :=
  (cooldown_spacing ⟨true, [], [], [0], 7, none, 100⟩ 0 rfl rfl).2.2

/-- C2: the cached state is written only by a successful set (to the
requested value) or a successful poll (to the polled value); a rejected set
leaves it untouched and hands the error to the HomeKit callback, and a
failed poll — transport rejection or truthy body `error` — leaves it
untouched as well. -/
theorem cached_state_discipline (v : Bool) (st : Option Bool) (e : String)
    (r : InfoResponse) :
    SwitchAccessory.setOnCharacteristicHandler v (.error e) st = (st, .error e) ∧
    (SwitchAccessory.setOnCharacteristicHandler v (.ok r) st).1 = some v ∧
    SwitchAccessory.loadStateTask (.error e) st = (st, []) ∧
    (truthy r.error = true → SwitchAccessory.loadStateTask (.ok r) st = (st, [])) ∧
    (truthy r.error = false →
      (SwitchAccessory.loadStateTask (.ok r) st).1 = some (r.switch == "on")) := by
  refine ⟨rfl, rfl, rfl, fun htr => ?_, fun hfa => ?_⟩
  · cases hc : r.error with
    | none => rw [hc] at htr; cases htr
    | some n =>
      have hn : n ≠ 0 := by rw [hc] at htr; simpa [truthy] using htr
      simp [SwitchAccessory.loadStateTask, SwitchAccessory.getOn, hc, hn]
  · cases hc : r.error with
    | none =>
      simp only [SwitchAccessory.loadStateTask, SwitchAccessory.getOn, hc]
      by_cases hst : st = some (r.switch == "on") <;> simp [hst]
    | some n =>
      have hn : n = 0 := by rw [hc] at hfa; simpa [truthy] using hfa
      subst hn
      simp only [SwitchAccessory.loadStateTask, SwitchAccessory.getOn, hc]
      by_cases hst : st = some (r.switch == "on") <;> simp [hst]

/-- Witness for C2: a poll whose body carries error code 5 leaves a cached
`true` untouched; one with a null error and `"off"` caches `false`. -/
theorem cached_state_discipline_witness :
    SwitchAccessory.loadStateTask (Except.ok ⟨some 5, "on"⟩) (some true) =
      (some true, []) ∧
    (SwitchAccessory.loadStateTask (Except.ok ⟨none, "off"⟩) (some true)).1 =
      some false := by
  have h1 := cached_state_discipline true (some true) "err" ⟨some 5, "on"⟩
  have h2 := cached_state_discipline true (some true) "err" ⟨none, "off"⟩
  exact ⟨h1.2.2.2.1 rfl, h2.2.2.2.2 rfl⟩

/-- C5: on a poll whose `getOn` resolves, an unchanged value raises no
notification and keeps the cache, a changed value caches the new value and
raises exactly one notification with it; over the poll results on, on, off
with the cache starting at on, exactly one notification fires, on the third
cycle, with value `false`. -/
theorem poll_change_detection (resp : HttpOutcome) (st : Option Bool)
    (v : Bool) (h : SwitchAccessory.getOn resp = .ok v) :
    (st = some v → SwitchAccessory.loadStateTask resp st = (st, [])) ∧
    (st ≠ some v → SwitchAccessory.loadStateTask resp st = (some v, [v])) ∧
    SwitchAccessory.pollRun
      [Except.ok ⟨none, "on"⟩, Except.ok ⟨none, "on"⟩, Except.ok ⟨none, "off"⟩]
      (some true) = (some false, [false]) ∧
    SwitchAccessory.pollRun [Except.ok ⟨none, "on"⟩, Except.ok ⟨none, "on"⟩]
      (some true) = (some true, []) := by
  refine ⟨fun hst => ?_, fun hst => ?_, by decide, by decide⟩
  · simp [SwitchAccessory.loadStateTask, h, hst]
  · simp [SwitchAccessory.loadStateTask, h, hst]

/-- Witness for C5: the third poll cycle of Scenario B, in isolation — cache
`true`, device now `"off"` — caches `false` and notifies once with `false`. -/
theorem poll_change_detection_witness :
    SwitchAccessory.loadStateTask (Except.ok ⟨none, "off"⟩) (some true) =
      (some false, [false]) := by
  have h := poll_change_detection (Except.ok ⟨none, "off"⟩) (some true) false rfl
  exact h.2.1 (by decide)

/-- C7: the set path never looks at the response body — any resolved POST,
a body with a non-null `error` code included, counts as success: the cache
takes the requested value and the callback gets `null`; only a rejected
request reaches the callback as an error. -/
theorem set_ignores_body (v : Bool) (st : Option Bool) (r : InfoResponse)
    (e : String) :
    SwitchAccessory.setOnCharacteristicHandler v (.ok r) st = (some v, .ok ()) ∧
    SwitchAccessory.setOnCharacteristicHandler v (.error e) st = (st, .error e) :=
  ⟨rfl, rfl⟩

/-- C8 counterexample: the body `{error: 0, data: {switch: "on"}}` carries a
non-null `error` field, yet `getOn` resolves with `true` — JS `if (error)`
is a truthiness test, so the claim "fails exactly when `error` is non-null"
is false at error code 0. -/
theorem getOn_nonnull_error_cex :
    (some (0 : Int) ≠ (none : Option Int)) ∧
    SwitchAccessory.getOn (Except.ok ⟨some 0, "on"⟩) = Except.ok true := by
  exact ⟨by decide, rfl⟩

/-- C8 amended: `getOn` fails exactly when the request rejects or the body's
`error` field is truthy (present and non-zero); with a falsy `error` (null
or 0) it resolves `data.switch === "on"`, and a truthy code `n` is the
rejection value. -/
theorem getOn_failure_modes (r : InfoResponse) (e : String) (n : Int) :
    (truthy r.error = false →
      SwitchAccessory.getOn (.ok r) = .ok (r.switch == "on")) ∧
    (r.error = some n → n ≠ 0 →
      SwitchAccessory.getOn (.ok r) = .error (.device n)) ∧
    SwitchAccessory.getOn (.error e) = .error (.transport e) ∧
    (∀ resp : HttpOutcome,
      (∃ err, SwitchAccessory.getOn resp = .error err) ↔
        (∃ msg, resp = .error msg) ∨
        (∃ q, resp = .ok q ∧ truthy q.error = true)) := by
  refine ⟨fun hfa => ?_, fun hc hn => ?_, rfl, fun resp => ?_⟩
  · cases hc : r.error with
    | none => simp [SwitchAccessory.getOn, hc]
    | some m =>
      have hm : m = 0 := by rw [hc] at hfa; simpa [truthy] using hfa
      subst hm
      simp [SwitchAccessory.getOn, hc]
  · have hn' : (n != 0) = true := by simpa using hn
    simp [SwitchAccessory.getOn, hc, hn']
  · constructor
    · rintro ⟨err, herr⟩
      cases resp with
      | error msg => exact Or.inl ⟨msg, rfl⟩
      | ok q =>
        refine Or.inr ⟨q, rfl, ?_⟩
        cases hc : q.error with
        | none => simp [SwitchAccessory.getOn, hc] at herr
        | some m =>
          by_cases hm : m = 0
          · subst hm
            simp [SwitchAccessory.getOn, hc] at herr
          · simpa [truthy] using hm
    · rintro (⟨msg, rfl⟩ | ⟨q, rfl, htr⟩)
      · exact ⟨.transport msg, rfl⟩
      · cases hc : q.error with
        | none => simp [hc, truthy] at htr
        | some m =>
          have hm : m ≠ 0 := by rw [hc] at htr; simpa [truthy] using htr
          exact ⟨.device m, by simp [SwitchAccessory.getOn, hc, hm]⟩

/-- Witness for the amended C8: error code 3 makes the poll read reject with
that code. -/
theorem getOn_failure_modes_witness :
    SwitchAccessory.getOn (Except.ok ⟨some 3, "off"⟩) =
      Except.error (.device 3) :=
  (getOn_failure_modes ⟨some 3, "off"⟩ "err" 3).2.1 rfl (by decide)

/-- C10: for every positive frequency the constructor's interval is the
ceiling of `1000 / frequency` — characterised as the least `n` with
`1000 ≤ frequency * n` and equal to the rational ceiling — and the single
queue instance is built with frequency 2 and cooldown 100 ms, giving a
500 ms tick. -/
theorem tick_interval (f : Nat) (hf : 0 < f) :
    (∀ n, Queue.timeout f ≤ n ↔ 1000 ≤ f * n) ∧
    Queue.timeout f = ⌈(1000 : ℚ) / (f : ℚ)⌉₊ ∧
    Queue.timeout SwitchAccessory.queueFrequency = 500 ∧
    SwitchAccessory.queueFrequency = 2 ∧
    SwitchAccessory.queueWait = 100 := by
  have h1 : ∀ n, Queue.timeout f ≤ n ↔ 1000 ≤ f * n := by
    intro n
    rw [Queue.timeout, Nat.div_le_iff_le_mul_add_pred hf]
    omega
  have hfq : (0 : ℚ) < (f : ℚ) := by exact_mod_cast hf
  have h2 : ∀ n, ⌈(1000 : ℚ) / (f : ℚ)⌉₊ ≤ n ↔ 1000 ≤ f * n := by
    intro n
    rw [Nat.ceil_le, div_le_iff₀ hfq, mul_comm]
    norm_cast
  refine ⟨h1, ?_, by decide, rfl, rfl⟩
  have hle1 : Queue.timeout f ≤ ⌈(1000 : ℚ) / (f : ℚ)⌉₊ :=
    (h1 _).mpr ((h2 _).mp le_rfl)
  have hle2 : ⌈(1000 : ℚ) / (f : ℚ)⌉₊ ≤ Queue.timeout f :=
    (h2 _).mpr ((h1 _).mp le_rfl)
  exact Nat.le_antisymm hle1 hle2

/-- Witness for C10 at the program's actual frequency 2: the interval is
500 ms, the least number of milliseconds `n` with `1000 ≤ 2 * n`. -/
theorem tick_interval_witness :
    Queue.timeout SwitchAccessory.queueFrequency = 500 ∧
    (Queue.timeout 2 ≤ 500 ↔ 1000 ≤ 2 * 500) := by
  have h := tick_interval 2 (by decide)
  exact ⟨h.2.2.1, h.1 500⟩
